import Mathlib

/-!
Verification of the cluster-validator validation engine.

This file gives a shallow embedding of the validation engine of
keikoproj/cluster-validator: the glob pattern matcher, the selection-scope
filter, the field and condition predicate evaluators over semi-structured
resource documents, the per-resource threshold state machine
(validateClusterResource) and the fan-out/fan-in coordinator (Validate).
Go machine integers that the code compares with 0 are embedded as Int;
counters that start at 0 and are only incremented or reset stay Int as well.
Strings are Lean Strings; the Go standard-library string functions used by
the code (strings.Split, strings.FieldsFunc, strings.ToLower,
strings.EqualFold) are re-implemented over the underlying character lists.
-/

set_option autoImplicit false

namespace ClusterValidator

/-! ### Go string primitives -/

/-- Model of Go strings.ToLower on the character list of a string
(ASCII case mapping, which covers every pattern the validator handles). -/
def toLowerStr (s : String) : List Char :=
  s.toList.map Char.toLower

/-- Model of Go strings.EqualFold: case-insensitive string equality. -/
def equalFold (a b : String) : Bool :=
  toLowerStr a == toLowerStr b

/-- Model of Go strings.Split with a single-character separator, acting on
character lists.  strings.Split never returns an empty list: splitting the
empty string yields one empty field. -/
def splitOnChar (sep : Char) : List Char → List (List Char)
  | [] => [[]]
  | c :: cs =>
    if c = sep then [] :: splitOnChar sep cs
    else
      match splitOnChar sep cs with
      | [] => [[c]]
      | h :: t => (c :: h) :: t

/-- Model of Go strings.FieldsFunc with the predicate (c == sep): split on
the separator and drop empty fields. -/
def fieldsSplit (sep : Char) (s : String) : List String :=
  ((splitOnChar sep s.toList).filter (fun f => ¬ f.isEmpty)).map String.mk

/-! ### Glob pattern matching

The validator delegates pattern matching to the gobwas/glob library,
compiled with no separator runes.  We model the documented semantics of the
subset of the pattern language the validator's specifications use:
a star matches any (possibly empty) character sequence, a question
mark matches exactly one character, and any other character matches
itself literally. -/

/-- All suffixes of a character list, longest first, ending with []. -/
def suffixes : List Char → List (List Char)
  | [] => [[]]
  | c :: cs => (c :: cs) :: suffixes cs

/-- Glob matching of a pattern against a subject, both as character lists.
A star consumes an arbitrary suffix of the subject. -/
def globMatch : List Char → List Char → Bool
  | [], s => s.isEmpty
  | p :: ps, s =>
    if p = '*' then (suffixes s).any (fun t => globMatch ps t)
    else
      match s with
      | [] => false
      | c :: s' => (if p = '?' then true else p = c) && globMatch ps s'

/-- Model of patternMatch (helpers.go): both the pattern and the subject
are lower-cased before glob matching, so matching is case-insensitive. -/
def patternMatch (pattern str : String) : Bool :=
  globMatch (toLowerStr pattern) (toLowerStr str)

/-- Model of matchInPatterns (helpers.go): the loop ranges over all
patterns and latches the condition to true on any match. -/
def matchInPatterns (patterns : List String) (str : String) : Bool :=
  patterns.foldl (fun condition p => if patternMatch p str then true else condition) false

/-! ### v1alpha1 API types -/

/-- ValidationConfiguration (pkg/api/v1alpha1): the thresholds are Go ints
(embedded as Int, since the code compares them with 0) and the poll
interval is a duration string. -/
structure ValidationConfiguration where
  SuccessThreshold : Int := 0
  FailureThreshold : Int := 0
  Interval : String := ""
deriving DecidableEq

/-- SelectionScope (pkg/api/v1alpha1): include and exclude pattern sets.
The Go field Include is spelled Includes here because include is a Lean
keyword. -/
structure SelectionScope where
  Includes : List String := []
  Exclude : List String := []
deriving DecidableEq

/-- FieldSelector (pkg/api/v1alpha1): a raw path string and the accepted
value patterns. -/
structure FieldSelector where
  Path : String := ""
  Values : List String := []
deriving DecidableEq

/-- FieldSelector.GetPath: the raw path is split on '=' and only the first
fragment is kept. -/
def FieldSelector.GetPath (f : FieldSelector) : String :=
  String.mk ((splitOnChar '=' f.Path.toList).headD [])

/-- FieldSelector.GetValues: a declared non-empty values list is returned
unchanged; an empty one is replaced by the singleton wildcard list. -/
def FieldSelector.GetValues (f : FieldSelector) : List String :=
  if f.Values.length > 0 then f.Values else ["*"]

/-- ResourceCondition (pkg/api/v1alpha1).  The Go field Type is spelled
Type' because Type is reserved in Lean; Status is the corev1
ConditionStatus string. -/
structure ResourceCondition where
  Type' : String := ""
  Status : String := ""
  Path : String := ""
deriving DecidableEq

/-- ClusterResource (pkg/api/v1alpha1): one declared resource check. -/
structure ClusterResource where
  Name : String := ""
  APIVersion : String := ""
  Required : Bool := false
  Configuration : ValidationConfiguration := {}
  Namespaces : Option SelectionScope := none
  Names : Option SelectionScope := none
  Fields : List FieldSelector := []
  Conditions : List ResourceCondition := []

/-- ClusterResource.SuccessThreshold: the per-resource override wins when
it is positive, otherwise the global value is used. -/
def ClusterResource.SuccessThreshold (r : ClusterResource)
    (globalCfg : ValidationConfiguration) : Int :=
  if r.Configuration.SuccessThreshold > 0 then r.Configuration.SuccessThreshold
  else globalCfg.SuccessThreshold

/-- ClusterResource.FailureThreshold: the per-resource override wins when
it is positive, otherwise the global value is used. -/
def ClusterResource.FailureThreshold (r : ClusterResource)
    (globalCfg : ValidationConfiguration) : Int :=
  if r.Configuration.FailureThreshold > 0 then r.Configuration.FailureThreshold
  else globalCfg.FailureThreshold

/-- schema.GroupVersionResource. -/
structure GVR where
  Group : String := ""
  Version : String := ""
  Resource : String := ""
deriving DecidableEq

/-- groupVersionResource (helpers.go): the apiVersion string is split on
'/'; one fragment is a bare version, two fragments are group and version,
and any other shape leaves group and version empty. -/
def groupVersionResource (groupVersion resource : String) : GVR :=
  match (splitOnChar '/' groupVersion.toList).map String.mk with
  | [v] => { Group := "", Version := v, Resource := resource }
  | [g, v] => { Group := g, Version := v, Resource := resource }
  | _ => { Group := "", Version := "", Resource := resource }

/-! ### Selection scope filter -/

/-- inSelectionScope (helpers.go).  A nil scope or an empty candidate
always matches.  Otherwise the include loop latches true on the first
matching include pattern, and the exclude loop sets the result to false on
the first matching exclude pattern. -/
def inSelectionScope (s : Option SelectionScope) (str : String) : Bool :=
  match s with
  | none => true
  | some s =>
    if str = "" then true
    else
      let matchScope := s.Includes.any (fun p => patternMatch p str)
      let matchScope := if s.Exclude.any (fun p => patternMatch p str) then false else matchScope
      matchScope

/-! ### Basic lemmas about the string and pattern layer -/

theorem splitOnChar_ne_nil (sep : Char) (l : List Char) : splitOnChar sep l ≠ [] := by
  cases l with
  | nil => simp [splitOnChar]
  | cons c cs =>
    simp only [splitOnChar]
    split
    · simp
    · cases h : splitOnChar sep cs <;> simp

theorem splitOnChar_headD (sep : Char) (l : List Char) :
    (splitOnChar sep l).headD [] = l.takeWhile (fun c => c ≠ sep) := by
  induction l with
  | nil => simp [splitOnChar]
  | cons c cs ih =>
    simp only [splitOnChar, List.takeWhile]
    by_cases h : c = sep
    · simp [h]
    · simp only [if_neg h]
      have hne := splitOnChar_ne_nil sep cs
      cases hsp : splitOnChar sep cs with
      | nil => exact absurd hsp hne
      | cons hd tl =>
        simp only [List.headD]
        rw [hsp] at ih
        simp only [List.headD] at ih
        simp [h, ih]

theorem suffixes_any_isEmpty (l : List Char) :
    (suffixes l).any (fun t => t.isEmpty) = true := by
  induction l with
  | nil => simp [suffixes]
  | cons c cs ih => simp [suffixes, ih]

/-- The wildcard pattern matches every subject. -/
theorem globMatch_star (s : List Char) : globMatch ['*'] s = true := by
  simp [globMatch, suffixes_any_isEmpty]

theorem patternMatch_star (s : String) : patternMatch "*" s = true := by
  simp only [patternMatch, toLowerStr]
  exact globMatch_star _

theorem foldl_latch (f : String → Bool) (init : Bool) (ps : List String) :
    ps.foldl (fun condition p => if f p then true else condition) init
      = (init || ps.any f) := by
  induction ps generalizing init with
  | nil => simp
  | cons p ps ih =>
    simp only [List.foldl, List.any_cons]
    rw [ih]
    by_cases h : f p <;> simp [h]

theorem matchInPatterns_eq_any (patterns : List String) (str : String) :
    matchInPatterns patterns str = patterns.any (fun p => patternMatch p str) := by
  simpa [matchInPatterns] using foldl_latch (fun p => patternMatch p str) false patterns

/-! ### Semi-structured resource documents

unstructured.Unstructured wraps a Go map[string]interface{}; we embed the
JSON-like universe of values the validator inspects.  Go maps are embedded
as association lists (the validator only performs key lookups on them). -/

inductive UValue where
  | vstr (s : String)
  | vbool (b : Bool)
  | vint (n : Int)
  | vnull
  | vlist (xs : List UValue)
  | vmap (entries : List (String × UValue))

/-- Lookup of a key in an embedded Go map. -/
def lookupField (entries : List (String × UValue)) (key : String) : Option UValue :=
  match entries with
  | [] => none
  | (k, v) :: rest => if k = key then some v else lookupField rest key

/-- Result of the apimachinery nested-field accessors: the value when the
whole path exists, absent when some key is missing, or a type error when an
intermediate value is not a map. -/
inductive Nested (α : Type) where
  | found (a : α)
  | absent
  | typeErr
deriving DecidableEq

/-- unstructured.NestedFieldNoCopy: walk the document along the field
names; a missing key yields absent, a non-map intermediate value yields a
type error. -/
def nestedFieldNoCopy : UValue → List String → Nested UValue
  | v, [] => .found v
  | .vmap entries, f :: fs =>
    match lookupField entries f with
    | some v => nestedFieldNoCopy v fs
    | none => .absent
  | _, _ :: _ => .typeErr

/-- unstructured.NestedSlice: the nested field must exist and be a list. -/
def nestedSlice (v : UValue) (fields : List String) : Nested (List UValue) :=
  match nestedFieldNoCopy v fields with
  | .found (.vlist xs) => .found xs
  | .found _ => .typeErr
  | .absent => .absent
  | .typeErr => .typeErr

/-- unstructured.NestedString as used by GetName/GetNamespace: a missing or
non-string value yields the empty string. -/
def getStringAt (v : UValue) (fields : List String) : String :=
  match nestedFieldNoCopy v fields with
  | .found (.vstr s) => s
  | _ => ""

/-- Unstructured.GetNamespace. -/
def GetNamespace (u : UValue) : String := getStringAt u ["metadata", "namespace"]

/-- Unstructured.GetName. -/
def GetName (u : UValue) : String := getStringAt u ["metadata", "name"]

/-- namespacedName (helpers.go): "namespace/name", or just "name" for a
cluster-scoped resource. -/
def namespacedName (r : UValue) : String :=
  if GetNamespace r = "" then GetName r
  else GetNamespace r ++ "/" ++ GetName r

/-- unstructuredSlicePath (helpers.go): the path is split on '.' (dropping
empty fragments) and resolved with NestedSlice.  The components mirror the
Go triple (value, found, err): on an error the value is empty and found is
false. -/
def unstructuredSlicePath (u : UValue) (jsonPath : String) :
    List UValue × Bool × Bool :=
  match nestedSlice u (fieldsSplit '.' jsonPath) with
  | .found xs => (xs, true, false)
  | .absent => ([], false, false)
  | .typeErr => ([], false, true)

/-! ### Validation result records -/

/-- ResourceErrors maps a failure-reason string to the affected resource
identities; embedded as an association list in insertion order. -/
abbrev ErrMap := List (String × List String)

/-- Model of result.ResourceErrors[reason] = append(..., name): append the
identity under the reason key, creating the key on first use. -/
def mapAppend (m : ErrMap) (reason name : String) : ErrMap :=
  match m with
  | [] => [(reason, [name])]
  | (k, vs) :: rest =>
    if k = reason then (k, vs ++ [name]) :: rest
    else (k, vs) :: mapAppend rest reason name

structure ConditionValidationResult where
  Condition : String := ""
  ResourceErrors : ErrMap := []
deriving DecidableEq

/-- NewConditionValidationResult (types.go). -/
def NewConditionValidationResult (cond : String) : ConditionValidationResult :=
  { Condition := cond, ResourceErrors := [] }

structure FieldValidationResult where
  FieldPath : String := ""
  ResourceErrors : ErrMap := []
deriving DecidableEq

/-- NewFieldValidationResult (types.go). -/
def NewFieldValidationResult (path : String) : FieldValidationResult :=
  { FieldPath := path, ResourceErrors := [] }

structure ClusterEndpointValidationResult where
  Errors : List (String × String) := []
  Name : String := ""
deriving DecidableEq

structure HTTPEndpointValidationResult where
  Errors : List (String × String) := []
  Name : String := ""
deriving DecidableEq

/-- ValidationSummary (types.go). -/
structure ValidationSummary where
  FieldValidation : List FieldValidationResult := []
  ConditionValidation : List ConditionValidationResult := []
  ClusterEndpointValidation : List ClusterEndpointValidationResult := []
  HTTPEndpointValidation : List HTTPEndpointValidationResult := []
deriving DecidableEq

/-! ### Condition validator (validator.go validateConditions)

The Go code reads condition["status"] with an unchecked type assertion
.(string); a Go type assertion on a nil or non-string value panics.  The
Option result embeds that control flow: none is a runtime panic, some is
normal completion. -/

/-- Inner loop of validateConditions over the extracted conditions list,
threading the conditionMatch flag and the errors map.  An entry that is not
a map, lacks a "type" key, or whose "type" is not a string is skipped; an
entry whose type matches case-insensitively has its "status" read by the
unchecked assertion, which panics (none) unless the value is a string. -/
def scanConditionEntries (conditionType conditionStatus name : String) :
    List UValue → Bool → ErrMap → Option (Bool × ErrMap)
  | [], conditionMatch, errs => some (conditionMatch, errs)
  | c :: rest, conditionMatch, errs =>
    match c with
    | .vmap condition =>
      match lookupField condition "type" with
      | none => scanConditionEntries conditionType conditionStatus name rest conditionMatch errs
      | some tp =>
        match tp with
        | .vstr condType =>
          if equalFold condType conditionType then
            match (lookupField condition "status").getD .vnull with
            | .vstr status =>
              let errs :=
                if ¬ equalFold status conditionStatus then
                  mapAppend errs
                    ("found conditions status '" ++ status ++
                      "' does not match required status '" ++ conditionStatus ++ "'") name
                else errs
              scanConditionEntries conditionType conditionStatus name rest true errs
            | _ => none
          else scanConditionEntries conditionType conditionStatus name rest conditionMatch errs
        | _ => scanConditionEntries conditionType conditionStatus name rest conditionMatch errs
    | _ => scanConditionEntries conditionType conditionStatus name rest conditionMatch errs

/-- Per-resource body of validateConditions: extract the conditions list at
the predicate's path, recording extraction type errors and not-found as
failure reasons, scan the entries, and record a missing condition type. -/
def validateConditionsResource (JSONPath conditionType conditionStatus : String)
    (errs : ErrMap) (resource : UValue) : Option ErrMap :=
  let name := namespacedName resource
  let (conditions, ok, hasErr) := unstructuredSlicePath resource JSONPath
  let errs :=
    if hasErr then mapAppend errs ("type mismatch in path " ++ JSONPath) name else errs
  let errs :=
    if ¬ ok then
      mapAppend errs ("conditions not found in resource path " ++ JSONPath) name
    else errs
  match scanConditionEntries conditionType conditionStatus name conditions false errs with
  | none => none
  | some (conditionMatch, errs) =>
    some
      (if ¬ conditionMatch then
        mapAppend errs
          ("condition type '" ++ conditionType ++ "' was not found in resource path " ++
            JSONPath) name
      else errs)

/-- validateConditions (validator.go): for each condition predicate, fold
the per-resource body over the in-scope resources and keep the predicates
that recorded at least one failure.  A none result is a Go panic from the
unchecked status assertion. -/
def validateConditions (r : ClusterResource) (resources : List UValue) :
    Option (List ConditionValidationResult) :=
  r.Conditions.foldlM
    (fun failedValidations cond =>
      let conditionStatus := cond.Status
      let conditionType := cond.Type'
      let JSONPath := cond.Path
      let conditionStr := conditionType ++ "=" ++ conditionStatus
      match resources.foldlM
          (fun errs resource =>
            validateConditionsResource JSONPath conditionType conditionStatus errs resource)
          (NewConditionValidationResult conditionStr).ResourceErrors with
      | none => none
      | some errs =>
        some
          (if errs.length > 0 then
            failedValidations ++ [{ Condition := conditionStr, ResourceErrors := errs }]
          else failedValidations))
    []

/-! ### Field validator (validator.go validateFields)

getJsonPathValue delegates to the kubectl JSONPath interpreter, an external
library; the extractor is therefore a parameter.  It returns either an
error (in which case the Go function returned the empty string as the
value) or the rendered scalar value. -/

/-- validateFields (validator.go) with the JSONPath interpreter passed as
the extractor g.  The lookup path handed to the extractor is
field.GetPath, the accepted patterns are field.GetValues; an extractor
error is recorded as a type-mismatch reason and leaves the empty string as
the value for the pattern check. -/
def validateFields (g : UValue → String → Except String String)
    (fields : List FieldSelector) (resources : List UValue) :
    List FieldValidationResult :=
  fields.foldl
    (fun failedValidations field =>
      let JSONPath := field.GetPath
      let pathValues := field.GetValues
      let result :=
        resources.foldl
          (fun result resource =>
            let name := namespacedName resource
            let (val, errs) :=
              match g resource JSONPath with
              | .error e =>
                ("", mapAppend result.ResourceErrors
                  ("field '" ++ field.Path ++ "' has type mismatch: " ++ e) name)
              | .ok v => (v, result.ResourceErrors)
            let errs :=
              if ¬ matchInPatterns pathValues val then
                mapAppend errs
                  ("JSONPath values '" ++ String.intercalate "," pathValues ++
                    "' not matching '" ++ val ++ "' in resources") name
              else errs
            { result with ResourceErrors := errs })
          (NewFieldValidationResult field.Path)
      if result.ResourceErrors.length > 0 then failedValidations ++ [result]
      else failedValidations)
    []

/-- Variant of validateFields written from the specification's words: the
lookup path evaluated for a field predicate is the portion of the raw path
string before the first '=' character.  Used to state the refinement
between the code's GetPath-based lookup and the specified one. -/
def validateFieldsBeforeEq (g : UValue → String → Except String String)
    (fields : List FieldSelector) (resources : List UValue) :
    List FieldValidationResult :=
  fields.foldl
    (fun failedValidations field =>
      let JSONPath := String.mk (field.Path.toList.takeWhile (fun c => c ≠ '='))
      let pathValues := field.GetValues
      let result :=
        resources.foldl
          (fun result resource =>
            let name := namespacedName resource
            let (val, errs) :=
              match g resource JSONPath with
              | .error e =>
                ("", mapAppend result.ResourceErrors
                  ("field '" ++ field.Path ++ "' has type mismatch: " ++ e) name)
              | .ok v => (v, result.ResourceErrors)
            let errs :=
              if ¬ matchInPatterns pathValues val then
                mapAppend errs
                  ("JSONPath values '" ++ String.intercalate "," pathValues ++
                    "' not matching '" ++ val ++ "' in resources") name
              else errs
            { result with ResourceErrors := errs })
          (NewFieldValidationResult field.Path)
      if result.ResourceErrors.length > 0 then failedValidations ++ [result]
      else failedValidations)
    []

/-! ### Threshold state machine (validator.go validateClusterResource)

Each polling round of the goroutine (i) calls the cluster lister, sending
any error on the shared errors channel, (ii) recomputes the field and
condition validator outputs against the freshly cached in-scope resources,
and (iii) updates the consecutive-success/consecutive-failure counters and
checks the thresholds.  The cluster's state over time is abstracted as the
per-round outputs of the two validators plus the lister's per-round error:
a RoundIn per round.  The loop gets a fuel bound (the Go loop is
unbounded); within the fuel the embedding is exact. -/

/-- ValidationError (types.go): the error a failed required check sends on
the errors channel. -/
structure ValidationError where
  Message : String := ""
  GVR : GVR := {}
  FieldValidations : List FieldValidationResult := []
  ConditionValidations : List ConditionValidationResult := []
  ClusterEndpointValidations : List ClusterEndpointValidationResult := []
  HTTPEndpointValidations : List HTTPEndpointValidationResult := []
deriving DecidableEq

/-- The two kinds of error that cross the errors channel: a lister error
wrapped with the group/version/resource identity (errors.Wrapf in
listDynamicResource), or a ValidationError for a required check's threshold
failure. -/
inductive GoError where
  | listError (gvr : GVR) (inner : String)
  | validationError (e : ValidationError)
deriving DecidableEq

/-- One polling round's environment: the lister error, if any, and the
outputs of validateFields and validateConditions for that round. -/
structure RoundIn where
  listErr : Option String := none
  fieldResults : List FieldValidationResult := []
  conditionResults : List ConditionValidationResult := []

/-- validateResources (validator.go), taking the outputs of the two
validators: a non-empty output is copied into the summary and makes the
round a failure (a non-nil returned error). -/
def validateResources (fields : List FieldValidationResult)
    (conditions : List ConditionValidationResult) : ValidationSummary × Bool :=
  let summary : ValidationSummary := {}
  let failed := false
  let (summary, failed) :=
    if fields.length > 0 then ({ summary with FieldValidation := fields }, true)
    else (summary, failed)
  let (summary, failed) :=
    if conditions.length > 0 then ({ summary with ConditionValidation := conditions }, true)
    else (summary, failed)
  (summary, failed)

/-- Whether round k of the environment fails (validateResources returns a
non-nil error). -/
def roundFailed (env : Nat → RoundIn) (k : Nat) : Bool :=
  (validateResources (env k).fieldResults (env k).conditionResults).2

/-- The two counters of the threshold state machine (Go ints, starting at
0). -/
structure TaskState where
  successCount : Int := 0
  failureCount : Int := 0
deriving DecidableEq

/-- Counter update of one round: a failed round increments failureCount
and resets successCount, a successful round increments successCount and
resets failureCount. -/
def updateCounters (failed : Bool) (st : TaskState) : TaskState :=
  if failed then { successCount := 0, failureCount := st.failureCount + 1 }
  else { successCount := st.successCount + 1, failureCount := 0 }

/-- Terminal states of the per-resource state machine. -/
inductive TaskTerm where
  | succeeded
  | failedState
deriving DecidableEq

/-- The threshold check performed after every round's counter update:
successCount against the success threshold first, then failureCount
against the failure threshold; none means keep polling. -/
def machineDecision (sThr fThr : Int) (st : TaskState) : Option TaskTerm :=
  if st.successCount ≥ sThr then some .succeeded
  else if st.failureCount ≥ fThr then some .failedState
  else none

/-- Everything observable about one goroutine's execution: the errors it
sent on the errors channel in order, its terminal state (none if the fuel
ran out first), the number of rounds it executed, and the final value of
its summary variable. -/
structure TaskRunResult where
  events : List GoError := []
  terminal : Option TaskTerm := none
  roundsExecuted : Nat := 0
  lastSummary : ValidationSummary := {}
deriving DecidableEq

/-- Counters after a list of round outcomes (true = failed), from the
initial all-zero state. -/
def countersAfter (outs : List Bool) : TaskState :=
  outs.foldl (fun st failed => updateCounters failed st) {}

/-- The length of the trailing run of rounds with outcome b. -/
def streak (b : Bool) (outs : List Bool) : Nat :=
  (outs.reverse.takeWhile (fun x => x = b)).length

/-- The outcome list of the first n rounds of an environment. -/
def outcomesUpTo (env : Nat → RoundIn) (n : Nat) : List Bool :=
  (List.range n).map (roundFailed env)

/-- Counter state after the first n rounds of an environment. -/
def stateAt (env : Nat → RoundIn) (n : Nat) : TaskState :=
  countersAfter (outcomesUpTo env n)

/-- The loop body of validateClusterResource, recursing on the fuel; the
environment is shifted by one round on each recursive call.  Each round:
emit the wrapped lister error if the list call failed (the goroutine does
not return in that case and still evaluates the round against the cached
resources), run validateResources, update the counters, and check the
thresholds; on a failure-threshold hit of a required resource emit the
ValidationError built from the current summary. -/
def clusterResourceLoop (required : Bool) (name : String) (gvr : GVR)
    (sThr fThr : Int) : (Nat → RoundIn) → Nat → TaskState → ValidationSummary →
    TaskRunResult
  | _, 0, _, summary => { events := [], terminal := none, roundsExecuted := 0, lastSummary := summary }
  | env, fuel + 1, st, _ =>
    let rnd := env 0
    let evs :=
      match rnd.listErr with
      | some e => [GoError.listError gvr e]
      | none => []
    let vres := validateResources rnd.fieldResults rnd.conditionResults
    let summary := vres.1
    let failed := vres.2
    let st' := updateCounters failed st
    match machineDecision sThr fThr st' with
    | some .succeeded =>
      { events := evs, terminal := some .succeeded, roundsExecuted := 1, lastSummary := summary }
    | some .failedState =>
      let evs' :=
        if required then
          evs ++ [GoError.validationError
            { Message := "failure threshold met for resource '" ++ name ++ "'"
              GVR := gvr
              FieldValidations := summary.FieldValidation
              ConditionValidations := summary.ConditionValidation }]
        else evs
      { events := evs', terminal := some .failedState, roundsExecuted := 1, lastSummary := summary }
    | none =>
      let rest := clusterResourceLoop required name gvr sThr fThr
        (fun j => env (j + 1)) fuel st' summary
      { events := evs ++ rest.events
        terminal := rest.terminal
        roundsExecuted := rest.roundsExecuted + 1
        lastSummary := rest.lastSummary }

/-- validateClusterResource (validator.go): the goroutine for one declared
resource check, started with zero counters, the empty summary, and the
effective thresholds derived from the resource and global configurations. -/
def validateClusterResource (r : ClusterResource) (globalCfg : ValidationConfiguration)
    (env : Nat → RoundIn) (fuel : Nat) : TaskRunResult :=
  clusterResourceLoop r.Required r.Name (groupVersionResource r.APIVersion r.Name)
    (r.SuccessThreshold globalCfg) (r.FailureThreshold globalCfg) env fuel {} {}

/-! ### Coordinator (validator.go Validate) -/

/-- The value Validate returns: nil (success), the first error received on
the errors channel, or no return at all (a goroutine neither terminated
nor sent an error within the fuel, so the select never fires). -/
inductive ValidateOutcome where
  | success
  | failure (e : GoError)
  | blocked
deriving DecidableEq

/-- One declared resource check together with its per-round environment. -/
structure CheckRun where
  resource : ClusterResource
  env : Nat → RoundIn

/-- The observable executions of the goroutines Validate spawns, one per
declared resource check. -/
def runsOf (checks : List CheckRun) (globalCfg : ValidationConfiguration)
    (fuel : Nat) : List TaskRunResult :=
  checks.map (fun c => validateClusterResource c.resource globalCfg c.env fuel)

/-- The goroutines that send at least one error on the errors channel. -/
def emittersOf (checks : List CheckRun) (globalCfg : ValidationConfiguration)
    (fuel : Nat) : List TaskRunResult :=
  (runsOf checks globalCfg fuel).filter (fun t => !t.events.isEmpty)

/-- Validate (validator.go): one goroutine per declared resource check.
The unbuffered errors channel delivers each goroutine's errors in order,
and the main loop returns on the first received error; across goroutines
the winner of the race is chosen by the scheduler, abstracted by sched
picking one of the tasks that sent at least one error.  When no error is
ever sent and every goroutine terminates, the WaitGroup closes the
finished channel and Validate returns nil. -/
def Validate (checks : List CheckRun) (globalCfg : ValidationConfiguration)
    (fuel sched : Nat) : ValidateOutcome :=
  match (emittersOf checks globalCfg fuel)[sched % (emittersOf checks globalCfg fuel).length]? with
  | some t => .failure (t.events.headD (GoError.listError {} ""))
  | none =>
    if (runsOf checks globalCfg fuel).all (fun t => t.terminal.isSome) then .success
    else .blocked

/-! ### Lemmas about the counters -/

/-- Counters after a list of round outcomes from an arbitrary state. -/
def countersFrom (st : TaskState) (outs : List Bool) : TaskState :=
  outs.foldl (fun st failed => updateCounters failed st) st

theorem countersAfter_eq_countersFrom (outs : List Bool) :
    countersAfter outs = countersFrom {} outs := rfl

theorem countersFrom_append (st : TaskState) (outs : List Bool) (b : Bool) :
    countersFrom st (outs ++ [b]) = updateCounters b (countersFrom st outs) := by
  simp [countersFrom, List.foldl_append]

theorem streak_append (b x : Bool) (outs : List Bool) :
    streak b (outs ++ [x]) = if x = b then streak b outs + 1 else 0 := by
  simp only [streak, List.reverse_append, List.reverse_singleton, List.singleton_append,
    List.takeWhile]
  by_cases h : x = b <;> simp [h]

/-- The counters are exactly the lengths of the trailing run of successes
and the trailing run of failures: thresholds count consecutive rounds. -/
theorem countersAfter_eq_streaks (outs : List Bool) :
    countersAfter outs
      = { successCount := (streak false outs : Int), failureCount := (streak true outs : Int) } := by
  induction outs using List.reverseRecOn with
  | nil => simp [countersAfter, countersFrom, streak]
  | append_singleton outs b ih =>
    rw [countersAfter_eq_countersFrom] at *
    rw [countersFrom_append, ih]
    cases b <;> simp [updateCounters, streak_append]

/-- At most one of the two counters is ever non-zero. -/
theorem countersAfter_zero_or (outs : List Bool) :
    (countersAfter outs).successCount = 0 ∨ (countersAfter outs).failureCount = 0 := by
  rw [countersAfter_eq_streaks]
  simp only [streak]
  cases h : outs.reverse with
  | nil => simp
  | cons hd tl => cases hd <;> simp [List.takeWhile, h]

theorem countersAfter_nonneg (outs : List Bool) :
    0 ≤ (countersAfter outs).successCount ∧ 0 ≤ (countersAfter outs).failureCount := by
  rw [countersAfter_eq_streaks]
  exact ⟨Int.ofNat_nonneg _, Int.ofNat_nonneg _⟩

/-! ### Lemmas about the polling loop -/

theorem outcomesUpTo_succ (env : Nat → RoundIn) (n : Nat) :
    outcomesUpTo env (n + 1)
      = roundFailed env 0 :: outcomesUpTo (fun j => env (j + 1)) n := by
  simp only [outcomesUpTo, List.range_succ_eq_map, List.map_cons, List.map_map]
  rfl

theorem forall_lt_succ_iff {P : Nat → Prop} (n : Nat) :
    (∀ j < n + 1, P j) ↔ P 0 ∧ ∀ j < n, P (j + 1) := by
  constructor
  · intro h
    exact ⟨h 0 (Nat.succ_pos n), fun j hj => h (j + 1) (by omega)⟩
  · rintro ⟨h0, hs⟩ j hj
    cases j with
    | zero => exact h0
    | succ m => exact hs m (by omega)

theorem countersFrom_nil (st : TaskState) : countersFrom st [] = st := rfl

theorem countersFrom_cons (st : TaskState) (b : Bool) (outs : List Bool) :
    countersFrom st (b :: outs) = countersFrom (updateCounters b st) outs := rfl

theorem outcomesUpTo_zero (env : Nat → RoundIn) : outcomesUpTo env 0 = [] := rfl

theorem outcomesUpTo_one (env : Nat → RoundIn) :
    outcomesUpTo env 1 = [roundFailed env 0] := rfl

section LoopLemmas

variable (required : Bool) (name : String) (gvr : GVR) (sThr fThr : Int)

theorem loop_rounds_le (fuel : Nat) :
    ∀ (env : Nat → RoundIn) (st : TaskState) (sum : ValidationSummary),
      (clusterResourceLoop required name gvr sThr fThr env fuel st sum).roundsExecuted ≤ fuel := by
  induction fuel with
  | zero => intro env st sum; simp [clusterResourceLoop]
  | succ n ih =>
    intro env st sum
    simp only [clusterResourceLoop]
    split
    · simp
    · simp
    · simpa using ih _ _ _

theorem loop_rounds_pos (fuel : Nat) (env : Nat → RoundIn) (st : TaskState)
    (sum : ValidationSummary) (h : 0 < fuel) :
    0 < (clusterResourceLoop required name gvr sThr fThr env fuel st sum).roundsExecuted := by
  cases fuel with
  | zero => omega
  | succ n =>
    simp only [clusterResourceLoop]
    split <;> simp

theorem loop_terminal_eq (fuel : Nat) :
    ∀ (env : Nat → RoundIn) (st : TaskState) (sum : ValidationSummary), 0 < fuel →
      (clusterResourceLoop required name gvr sThr fThr env fuel st sum).terminal
        = machineDecision sThr fThr (countersFrom st (outcomesUpTo env
            (clusterResourceLoop required name gvr sThr fThr env fuel st sum).roundsExecuted)) := by
  induction fuel with
  | zero => intro env st sum h; omega
  | succ n ih =>
    intro env st sum _
    simp only [clusterResourceLoop]
    split
    · rename_i heq
      simpa [outcomesUpTo_one, countersFrom_cons, countersFrom_nil, roundFailed] using heq.symm
    · rename_i heq
      simpa [outcomesUpTo_one, countersFrom_cons, countersFrom_nil, roundFailed] using heq.symm
    · rename_i heq
      cases n with
      | zero =>
        simpa [clusterResourceLoop, outcomesUpTo_one, countersFrom_cons, countersFrom_nil,
          roundFailed] using heq.symm
      | succ m =>
        have := ih (fun j => env (j + 1))
          (updateCounters (validateResources (env 0).fieldResults (env 0).conditionResults).2 st)
          (validateResources (env 0).fieldResults (env 0).conditionResults).1 (Nat.succ_pos m)
        simpa [outcomesUpTo_succ, countersFrom_cons, roundFailed] using this

theorem loop_no_early_decision (fuel : Nat) :
    ∀ (env : Nat → RoundIn) (st : TaskState) (sum : ValidationSummary) (k : Nat),
      k + 1 < (clusterResourceLoop required name gvr sThr fThr env fuel st sum).roundsExecuted →
      machineDecision sThr fThr (countersFrom st (outcomesUpTo env (k + 1))) = none := by
  induction fuel with
  | zero => intro env st sum k h; simp [clusterResourceLoop] at h
  | succ n ih =>
    intro env st sum k h
    rw [clusterResourceLoop] at h
    simp only at h
    revert h
    split
    · intro h; simp at h
    · intro h; simp at h
    · rename_i heq
      intro h
      simp only at h
      cases k with
      | zero =>
        simpa [outcomesUpTo_one, countersFrom_cons, countersFrom_nil, roundFailed] using heq
      | succ m =>
        have hm : m + 1 < (clusterResourceLoop required name gvr sThr fThr
            (fun j => env (j + 1)) n
            (updateCounters (validateResources (env 0).fieldResults (env 0).conditionResults).2 st)
            (validateResources (env 0).fieldResults (env 0).conditionResults).1).roundsExecuted := by
          omega
        have := ih (fun j => env (j + 1))
          (updateCounters (validateResources (env 0).fieldResults (env 0).conditionResults).2 st)
          (validateResources (env 0).fieldResults (env 0).conditionResults).1 m hm
        simpa [outcomesUpTo_succ, countersFrom_cons, roundFailed] using this

theorem loop_events_nil_iff (fuel : Nat) :
    ∀ (env : Nat → RoundIn) (st : TaskState) (sum : ValidationSummary),
      (clusterResourceLoop required name gvr sThr fThr env fuel st sum).events = [] ↔
        (∀ j < (clusterResourceLoop required name gvr sThr fThr env fuel st sum).roundsExecuted,
            (env j).listErr = none)
          ∧ ¬(required = true ∧
              (clusterResourceLoop required name gvr sThr fThr env fuel st sum).terminal
                = some .failedState) := by
  induction fuel with
  | zero => intro env st sum; simp [clusterResourceLoop]
  | succ n ih =>
    intro env st sum
    simp only [clusterResourceLoop]
    split
    · constructor
      · intro h
        refine ⟨fun j hj => ?_, by simp⟩
        simp only at hj
        interval_cases j
        revert h
        cases hl : (env 0).listErr <;> simp
      · rintro ⟨h, -⟩
        have := h 0 (by simp)
        simp [this]
    · rename_i heq
      by_cases hreq : required
      · subst hreq
        constructor
        · intro h
          exfalso
          revert h
          cases hl : (env 0).listErr <;> simp
        · rintro ⟨-, habs⟩
          exact absurd ⟨rfl, by simp⟩ habs
      · simp only [if_neg hreq]
        constructor
        · intro h
          refine ⟨fun j hj => ?_, by simp [hreq]⟩
          simp only at hj
          interval_cases j
          revert h
          cases hl : (env 0).listErr <;> simp
        · rintro ⟨h, -⟩
          have := h 0 (by simp)
          simp [this]
    · rename_i heq
      have ihr := ih (fun j => env (j + 1))
        (updateCounters (validateResources (env 0).fieldResults (env 0).conditionResults).2 st)
        (validateResources (env 0).fieldResults (env 0).conditionResults).1
      constructor
      · intro h
        simp only [List.append_eq_nil] at h
        obtain ⟨h0, hrest⟩ := h
        obtain ⟨hj, hterm⟩ := ihr.mp hrest
        refine ⟨?_, by simpa using hterm⟩
        rw [forall_lt_succ_iff]
        refine ⟨?_, hj⟩
        revert h0
        cases hl : (env 0).listErr <;> simp
      · rintro ⟨hj, hterm⟩
        rw [forall_lt_succ_iff] at hj
        simp only [List.append_eq_nil]
        constructor
        · have := hj.1
          simp [this]
        · exact ihr.mpr ⟨hj.2, by simpa using hterm⟩

theorem loop_head_event (fuel : Nat) :
    ∀ (env : Nat → RoundIn) (st : TaskState) (sum : ValidationSummary) (k : Nat) (e : String),
      k < (clusterResourceLoop required name gvr sThr fThr env fuel st sum).roundsExecuted →
      (env k).listErr = some e →
      (∀ j < k, (env j).listErr = none) →
      (clusterResourceLoop required name gvr sThr fThr env fuel st sum).events.head?
        = some (GoError.listError gvr e) := by
  induction fuel with
  | zero => intro env st sum k e h; simp [clusterResourceLoop] at h
  | succ n ih =>
    intro env st sum k e hk he hbefore
    simp only [clusterResourceLoop]
    revert hk
    simp only [clusterResourceLoop]
    split
    · intro hk
      simp only at hk
      interval_cases k
      simp [he]
    · intro hk
      simp only at hk
      interval_cases k
      by_cases hreq : required <;> simp [he, hreq]
    · intro hk
      simp only at hk
      cases k with
      | zero => simp [he]
      | succ m =>
        have h0 : (env 0).listErr = none := hbefore 0 (Nat.succ_pos m)
        have hm : m < (clusterResourceLoop required name gvr sThr fThr
            (fun j => env (j + 1)) n
            (updateCounters (validateResources (env 0).fieldResults (env 0).conditionResults).2 st)
            (validateResources (env 0).fieldResults (env 0).conditionResults).1).roundsExecuted := by
          omega
        have := ih (fun j => env (j + 1))
          (updateCounters (validateResources (env 0).fieldResults (env 0).conditionResults).2 st)
          (validateResources (env 0).fieldResults (env 0).conditionResults).1 m e hm he
          (fun j hj => hbefore (j + 1) (by omega))
        simpa [h0] using this

theorem loop_validation_event (fuel : Nat) :
    ∀ (env : Nat → RoundIn) (st : TaskState) (sum : ValidationSummary) (ev : ValidationError),
      GoError.validationError ev
          ∈ (clusterResourceLoop required name gvr sThr fThr env fuel st sum).events →
      required = true
        ∧ (clusterResourceLoop required name gvr sThr fThr env fuel st sum).terminal
            = some .failedState
        ∧ ev = { Message := "failure threshold met for resource '" ++ name ++ "'"
                 GVR := gvr
                 FieldValidations :=
                   (clusterResourceLoop required name gvr sThr fThr env fuel st sum).lastSummary.FieldValidation
                 ConditionValidations :=
                   (clusterResourceLoop required name gvr sThr fThr env fuel st sum).lastSummary.ConditionValidation } := by
  induction fuel with
  | zero => intro env st sum ev h; simp [clusterResourceLoop] at h
  | succ n ih =>
    intro env st sum ev h
    revert h
    simp only [clusterResourceLoop]
    split
    · intro h
      exfalso
      revert h
      cases hl : (env 0).listErr <;> simp
    · by_cases hreq : required
      · subst hreq
        intro h
        simp only [eq_self_iff_true, if_true] at h
        refine ⟨rfl, by simp, ?_⟩
        simp only [List.mem_append] at h
        rcases h with h | h
        · exfalso; revert h; cases hl : (env 0).listErr <;> simp
        · simp only [List.mem_singleton] at h
          simpa using h
      · intro h
        exfalso
        simp only [if_neg hreq] at h
        revert h
        cases hl : (env 0).listErr <;> simp
    · intro h
      simp only [List.mem_append] at h
      rcases h with h | h
      · exfalso; revert h; cases hl : (env 0).listErr <;> simp
      · have := ih (fun j => env (j + 1))
          (updateCounters (validateResources (env 0).fieldResults (env 0).conditionResults).2 st)
          (validateResources (env 0).fieldResults (env 0).conditionResults).1 ev h
        simpa using this

theorem loop_env_validation_independent (fuel : Nat) :
    ∀ (env env₂ : Nat → RoundIn) (st : TaskState) (sum : ValidationSummary),
      (∀ j, (env₂ j).fieldResults = (env j).fieldResults
        ∧ (env₂ j).conditionResults = (env j).conditionResults) →
      (clusterResourceLoop required name gvr sThr fThr env₂ fuel st sum).terminal
          = (clusterResourceLoop required name gvr sThr fThr env fuel st sum).terminal
        ∧ (clusterResourceLoop required name gvr sThr fThr env₂ fuel st sum).roundsExecuted
          = (clusterResourceLoop required name gvr sThr fThr env fuel st sum).roundsExecuted
        ∧ (clusterResourceLoop required name gvr sThr fThr env₂ fuel st sum).lastSummary
          = (clusterResourceLoop required name gvr sThr fThr env fuel st sum).lastSummary := by
  induction fuel with
  | zero => intro env env₂ st sum h; simp [clusterResourceLoop]
  | succ n ih =>
    intro env env₂ st sum h
    have h0f := (h 0).1
    have h0c := (h 0).2
    simp only [clusterResourceLoop, h0f, h0c]
    split
    · simp
    · simp
    · have := ih (fun j => env (j + 1)) (fun j => env₂ (j + 1))
        (updateCounters (validateResources (env 0).fieldResults (env 0).conditionResults).2 st)
        (validateResources (env 0).fieldResults (env 0).conditionResults).1
        (fun j => h (j + 1))
      simpa using this

end LoopLemmas

/-! ### Lemmas about the coordinator -/

theorem mem_runsOf (checks : List CheckRun) (globalCfg : ValidationConfiguration)
    (fuel : Nat) (c : CheckRun) (hc : c ∈ checks) :
    validateClusterResource c.resource globalCfg c.env fuel ∈ runsOf checks globalCfg fuel :=
  List.mem_map_of_mem _ hc

theorem Validate_success_iff (checks : List CheckRun) (globalCfg : ValidationConfiguration)
    (fuel sched : Nat) :
    Validate checks globalCfg fuel sched = .success ↔
      ∀ c ∈ checks,
        (validateClusterResource c.resource globalCfg c.env fuel).events = []
          ∧ (validateClusterResource c.resource globalCfg c.env fuel).terminal.isSome := by
  constructor
  · intro hs
    have hnil : emittersOf checks globalCfg fuel = [] := by
      by_contra hne
      have hpos : 0 < (emittersOf checks globalCfg fuel).length := List.length_pos.mpr hne
      have hlt := Nat.mod_lt sched hpos
      unfold Validate at hs
      rw [List.getElem?_eq_getElem hlt] at hs
      simp at hs
    unfold Validate at hs
    rw [hnil] at hs
    simp only [List.getElem?_nil] at hs
    intro c hc
    have hmem := mem_runsOf checks globalCfg fuel c hc
    have hev : (validateClusterResource c.resource globalCfg c.env fuel).events = [] := by
      have := List.filter_eq_nil_iff.mp hnil _ hmem
      simpa using this
    refine ⟨hev, ?_⟩
    revert hs
    split
    · rename_i hall
      intro _
      exact List.all_eq_true.mp hall _ hmem
    · intro hs
      simp at hs
  · intro h
    have hnil : emittersOf checks globalCfg fuel = [] := by
      rw [emittersOf, List.filter_eq_nil_iff]
      intro t ht
      obtain ⟨c, hc, rfl⟩ := List.mem_map.mp ht
      simp [(h c hc).1]
    unfold Validate
    rw [hnil]
    simp only [List.getElem?_nil]
    rw [if_pos]
    rw [List.all_eq_true]
    intro t ht
    obtain ⟨c, hc, rfl⟩ := List.mem_map.mp ht
    exact (h c hc).2

theorem Validate_failure_head (checks : List CheckRun) (globalCfg : ValidationConfiguration)
    (fuel sched : Nat) (e : GoError)
    (h : Validate checks globalCfg fuel sched = .failure e) :
    ∃ c ∈ checks,
      (validateClusterResource c.resource globalCfg c.env fuel).events.head? = some e := by
  unfold Validate at h
  revert h
  cases hge : (emittersOf checks globalCfg fuel)[sched % (emittersOf checks globalCfg fuel).length]? with
  | none =>
    intro h
    simp only at h
    split at h <;> simp at h
  | some t =>
    intro h
    simp only at h
    obtain ⟨hlt, hEq⟩ := List.getElem?_eq_some.mp hge
    have hmem : t ∈ emittersOf checks globalCfg fuel := hEq ▸ List.getElem_mem _
    have hmem' := List.mem_filter.mp hmem
    obtain ⟨c, hc, rfl⟩ := List.mem_map.mp hmem'.1
    refine ⟨c, hc, ?_⟩
    have hne : (validateClusterResource c.resource globalCfg c.env fuel).events ≠ [] := by
      have := hmem'.2
      simpa using this
    obtain ⟨a, rest, ha⟩ := List.exists_cons_of_ne_nil hne
    simp only [ha, List.head?_cons]
    injection h with h'
    rw [ha] at h'
    simp only [List.headD_cons] at h'
    rw [h']

theorem Validate_failure_exists_sched (checks : List CheckRun)
    (globalCfg : ValidationConfiguration) (fuel : Nat) (e : GoError) (c : CheckRun)
    (hc : c ∈ checks)
    (hhead : (validateClusterResource c.resource globalCfg c.env fuel).events.head? = some e) :
    ∃ sched, Validate checks globalCfg fuel sched = .failure e := by
  have hne : (validateClusterResource c.resource globalCfg c.env fuel).events ≠ [] := by
    intro habs
    rw [habs] at hhead
    simp at hhead
  have hmem : validateClusterResource c.resource globalCfg c.env fuel
      ∈ emittersOf checks globalCfg fuel := by
    rw [emittersOf, List.mem_filter]
    exact ⟨mem_runsOf checks globalCfg fuel c hc, by simpa using hne⟩
  obtain ⟨i, hi, hget⟩ := List.getElem_of_mem hmem
  refine ⟨i, ?_⟩
  unfold Validate
  rw [Nat.mod_eq_of_lt hi, List.getElem?_eq_getElem hi, hget]
  obtain ⟨a, rest, ha⟩ := List.exists_cons_of_ne_nil hne
  rw [ha] at hhead
  simp only [List.head?_cons] at hhead
  injection hhead with hhead
  simp [ha, hhead]

theorem Validate_not_success_of_events (checks : List CheckRun)
    (globalCfg : ValidationConfiguration) (fuel : Nat) (c : CheckRun) (hc : c ∈ checks)
    (hne : (validateClusterResource c.resource globalCfg c.env fuel).events ≠ []) :
    ∀ sched, Validate checks globalCfg fuel sched ≠ .success := by
  intro sched hs
  have := (Validate_success_iff checks globalCfg fuel sched).mp hs c hc
  exact hne this.1

/-! ### Concrete fixtures used by witnesses and counterexamples -/

/-- A global configuration with both thresholds 2 and a 1s interval. -/
def cfgTwo : ValidationConfiguration :=
  { SuccessThreshold := 2, FailureThreshold := 2, Interval := "1s" }

/-- A required check with no per-resource configuration override. -/
def namespacesCheck : ClusterResource :=
  { Name := "namespaces", APIVersion := "v1", Required := true }

/-- A non-required check whose failure threshold override is 1. -/
def podsCheckOptional : ClusterResource :=
  { Name := "pods", APIVersion := "v1", Required := false
    Configuration := { SuccessThreshold := 5, FailureThreshold := 1 } }

/-- A required check whose failure threshold override is 1. -/
def podsCheckRequired : ClusterResource :=
  { Name := "pods", APIVersion := "v1", Required := true
    Configuration := { SuccessThreshold := 2, FailureThreshold := 1 } }

/-- A required check whose effective success threshold degenerates to 0
(override 0 and global 0). -/
def degenerateCheck : ClusterResource :=
  { Name := "pods", APIVersion := "v1", Required := true
    Configuration := { SuccessThreshold := 0, FailureThreshold := 1 } }

/-- An environment in which every round validates cleanly. -/
def envClean : Nat → RoundIn := fun _ => {}

/-- A non-empty field-validator output. -/
def failingFieldResult : FieldValidationResult :=
  { FieldPath := ".status.phase"
    ResourceErrors :=
      [("JSONPath values 'active' not matching 'Terminating' in resources",
        ["other-namespace-3"])] }

/-- An environment in which every round fails field validation. -/
def envFieldFail : Nat → RoundIn := fun _ => { fieldResults := [failingFieldResult] }

/-- An environment whose first round's cluster list call errors out. -/
def envListErr : Nat → RoundIn :=
  fun k => if k = 0 then { listErr := some "connection refused" } else {}

/-! ### Claim C4 -/

/-- C4 counterexample: a declared resource check with no threshold
override under an all-zero global configuration has effective success
threshold 0 — the effective threshold used at runtime is not strictly
positive. -/
theorem spec_c4_counterexample :
    ClusterResource.SuccessThreshold { Name := "pods", APIVersion := "v1" } {} = 0
      ∧ ¬ 0 < ClusterResource.SuccessThreshold { Name := "pods", APIVersion := "v1" } {} := by
  decide

/-- C4 (amended): the effective success and failure thresholds are the
per-resource override when it is positive and the global value otherwise;
an effective threshold is strictly positive iff the override or the global
value is — positivity is not enforced when both are non-positive. -/
theorem spec_c4_effective_thresholds (r : ClusterResource) (g : ValidationConfiguration) :
    (r.SuccessThreshold g
        = if r.Configuration.SuccessThreshold > 0 then r.Configuration.SuccessThreshold
          else g.SuccessThreshold)
      ∧ (r.FailureThreshold g
        = if r.Configuration.FailureThreshold > 0 then r.Configuration.FailureThreshold
          else g.FailureThreshold)
      ∧ (0 < r.SuccessThreshold g
        ↔ 0 < r.Configuration.SuccessThreshold ∨ 0 < g.SuccessThreshold)
      ∧ (0 < r.FailureThreshold g
        ↔ 0 < r.Configuration.FailureThreshold ∨ 0 < g.FailureThreshold) := by
  refine ⟨rfl, rfl, ?_, ?_⟩
  · unfold ClusterResource.SuccessThreshold
    by_cases h : r.Configuration.SuccessThreshold > 0 <;> simp [h]
  · unfold ClusterResource.FailureThreshold
    by_cases h : r.Configuration.FailureThreshold > 0 <;> simp [h]

/-! ### Claim C6 -/

/-- C6: whenever a non-empty candidate matches some exclude pattern, the
selection-scope check is false, whatever the include patterns say. -/
theorem spec_c6_exclude_wins (P Q : List String) (s : String)
    (hs : s ≠ "") (hq : ∃ q ∈ Q, patternMatch q s = true) :
    inSelectionScope (some { Includes := P, Exclude := Q }) s = false := by
  simp only [inSelectionScope, if_neg hs]
  have hany : Q.any (fun p => patternMatch p s) = true := List.any_eq_true.mpr hq
  simp [hany]

/-- C6 witness: a pod name matching both the wildcard include and a
debug-pod exclude is rejected. -/
theorem spec_c6_witness :
    "debug-pod-1" ≠ ""
      ∧ (∃ q ∈ ["debug-pod*"], patternMatch q "debug-pod-1" = true)
      ∧ inSelectionScope
          (some { Includes := ["*"], Exclude := ["debug-pod*"] }) "debug-pod-1" = false :=
  ⟨by decide, ⟨"debug-pod*", by decide, by decide⟩,
    spec_c6_exclude_wins ["*"] ["debug-pod*"] "debug-pod-1" (by decide)
      ⟨"debug-pod*", by decide, by decide⟩⟩

/-! ### Claim C7 -/

/-- C7: an absent scope accepts every candidate, and any scope accepts the
empty candidate, regardless of the scope's include and exclude patterns. -/
theorem spec_c7_absent_or_empty :
    (∀ s : String, inSelectionScope none s = true)
      ∧ ∀ S : SelectionScope, inSelectionScope (some S) "" = true := by
  exact ⟨fun s => rfl, fun S => by simp [inSelectionScope]⟩

/-! ### Claim C8 -/

/-- C8: an empty declared values list normalizes to the singleton wildcard
list and then accepts every extracted value; a non-empty list is returned
unchanged. -/
theorem spec_c8_empty_values_wildcard (f : FieldSelector) :
    (f.Values = [] →
        f.GetValues = ["*"] ∧ ∀ s : String, matchInPatterns f.GetValues s = true)
      ∧ (f.Values ≠ [] → f.GetValues = f.Values) := by
  constructor
  · intro h
    have hg : f.GetValues = ["*"] := by simp [FieldSelector.GetValues, h]
    refine ⟨hg, fun s => ?_⟩
    rw [hg, matchInPatterns_eq_any]
    simp [patternMatch_star]
  · intro h
    have hlen : f.Values.length > 0 := by
      cases hv : f.Values with
      | nil => exact absurd hv h
      | cons a t => simp
    simp [FieldSelector.GetValues, hlen]

/-- C8 witness: the empty values list accepts the value Pending, and a
non-empty list is kept as declared. -/
theorem spec_c8_witness :
    (FieldSelector.GetValues { Path := ".status.phase", Values := [] } = ["*"]
        ∧ matchInPatterns
            (FieldSelector.GetValues { Path := ".status.phase", Values := [] }) "Pending" = true)
      ∧ FieldSelector.GetValues { Path := ".status.phase", Values := ["active"] } = ["active"] :=
  ⟨⟨((spec_c8_empty_values_wildcard { Path := ".status.phase", Values := [] }).1 rfl).1,
      ((spec_c8_empty_values_wildcard { Path := ".status.phase", Values := [] }).1 rfl).2 "Pending"⟩,
    (spec_c8_empty_values_wildcard { Path := ".status.phase", Values := ["active"] }).2 (by decide)⟩

/-! ### Claim C9 -/

/-- C9: the lookup path evaluated for a field predicate is exactly the
portion of the raw path string before the first '='; a raw path without
'=' is used whole; and the field validator is extensionally the
specification's before-the-first-equals variant for every extractor. -/
theorem spec_c9_lookup_path :
    (∀ f : FieldSelector,
        (f.GetPath).toList = f.Path.toList.takeWhile (fun c => c ≠ '='))
      ∧ (∀ f : FieldSelector, '=' ∉ f.Path.toList → f.GetPath = f.Path)
      ∧ ∀ (g : UValue → String → Except String String) (fields : List FieldSelector)
          (resources : List UValue),
          validateFields g fields resources = validateFieldsBeforeEq g fields resources := by
  have hpath : ∀ f : FieldSelector,
      f.GetPath = String.mk (f.Path.toList.takeWhile (fun c => c ≠ '=')) := by
    intro f
    unfold FieldSelector.GetPath
    rw [splitOnChar_headD]
  have htl : ∀ f : FieldSelector,
      (f.GetPath).toList = f.Path.toList.takeWhile (fun c => c ≠ '=') := by
    intro f
    rw [hpath f]
    rfl
  refine ⟨htl, ?_, ?_⟩
  · intro f hf
    have hself : f.Path.toList.takeWhile (fun c => c ≠ '=') = f.Path.toList := by
      rw [List.takeWhile_eq_self_iff]
      intro a ha
      simp only [ne_eq, decide_eq_true_eq]
      intro habs
      exact hf (habs ▸ ha)
    rw [hpath f, hself]
    rfl
  · intro g fields resources
    unfold validateFields validateFieldsBeforeEq
    simp only [hpath]

/-- C9 witness: a raw path with an =value suffix is looked up at its
prefix before '=', and one without '=' is used whole. -/
theorem spec_c9_witness :
    (FieldSelector.GetPath { Path := ".status.phase=Running", Values := [] }).toList
        = ".status.phase=Running".toList.takeWhile (fun c => c ≠ '=')
      ∧ ('=' ∉ ".status.phase".toList
        ∧ FieldSelector.GetPath { Path := ".status.phase", Values := [] } = ".status.phase") :=
  ⟨spec_c9_lookup_path.1 { Path := ".status.phase=Running", Values := [] },
    by decide,
    spec_c9_lookup_path.2.1 { Path := ".status.phase", Values := [] } (by decide)⟩

/-! ### Claim C10 -/

/-- A node document whose Ready condition entry has no status field. -/
def statuslessConditionNode : UValue :=
  .vmap [("metadata", .vmap [("name", .vstr "node-1")]),
         ("status", .vmap [("conditions", .vlist [.vmap [("type", .vstr "Ready")]])])]

/-- A node document whose Ready condition entry carries status True. -/
def wellFormedConditionNode : UValue :=
  .vmap [("metadata", .vmap [("name", .vstr "node-2")]),
         ("status", .vmap [("conditions",
            .vlist [.vmap [("type", .vstr "Ready"), ("status", .vstr "True")]])])]

/-- The condition check of the repository's conditions-validation example. -/
def nodesReadyCheck : ClusterResource :=
  { Name := "nodes", APIVersion := "v1", Required := true
    Conditions := [{ Type' := "ready", Status := "True", Path := "status.conditions" }] }

/-- C10: evaluating validateConditions at a resource whose type-matching
condition entry lacks the status field reaches the unchecked
condition["status"].(string) assertion on a nil value and panics (none),
while the same predicate on a well-formed entry completes normally. -/
theorem spec_c10_status_assertion_panics :
    validateConditions nodesReadyCheck [statuslessConditionNode] = none
      ∧ validateConditions nodesReadyCheck [wellFormedConditionNode] = some [] := by
  constructor <;> rfl

/-! ### Claim C2 -/

/-- C2: each round updates the counters exclusively by increment-and-reset
(so the counters are exactly the lengths of the trailing streaks of equal
outcomes, and a threshold can only be reached by that many consecutive
rounds), and the machine terminates exactly when the success check — made
first — or the failure check fires: the terminal state equals the
threshold check at the last executed round and no earlier round's check
fires. -/
theorem spec_c2_counter_machine (r : ClusterResource) (globalCfg : ValidationConfiguration)
    (env : Nat → RoundIn) (fuel : Nat) :
    (∀ st : TaskState,
        updateCounters false st = { successCount := st.successCount + 1, failureCount := 0 }
          ∧ updateCounters true st = { successCount := 0, failureCount := st.failureCount + 1 })
      ∧ (∀ outs : List Bool, countersAfter outs
          = { successCount := (streak false outs : Int), failureCount := (streak true outs : Int) })
      ∧ (∀ st : TaskState,
          machineDecision (r.SuccessThreshold globalCfg) (r.FailureThreshold globalCfg) st
            = if st.successCount ≥ r.SuccessThreshold globalCfg then some .succeeded
              else if st.failureCount ≥ r.FailureThreshold globalCfg then some .failedState
              else none)
      ∧ (0 < fuel →
          (validateClusterResource r globalCfg env fuel).terminal
            = machineDecision (r.SuccessThreshold globalCfg) (r.FailureThreshold globalCfg)
                (stateAt env (validateClusterResource r globalCfg env fuel).roundsExecuted))
      ∧ (∀ n, n + 1 < (validateClusterResource r globalCfg env fuel).roundsExecuted →
          machineDecision (r.SuccessThreshold globalCfg) (r.FailureThreshold globalCfg)
            (stateAt env (n + 1)) = none) := by
  refine ⟨fun st => ⟨rfl, rfl⟩, countersAfter_eq_streaks, fun st => rfl, ?_, ?_⟩
  · intro hf
    exact loop_terminal_eq r.Required r.Name (groupVersionResource r.APIVersion r.Name)
      (r.SuccessThreshold globalCfg) (r.FailureThreshold globalCfg) fuel env {} {} hf
  · intro n hn
    exact loop_no_early_decision r.Required r.Name (groupVersionResource r.APIVersion r.Name)
      (r.SuccessThreshold globalCfg) (r.FailureThreshold globalCfg) fuel env {} {} n hn

/-- C2 witness: for the required check without override under the global
configuration with thresholds 2, a clean environment terminates with the
success check firing at the last executed round. -/
theorem spec_c2_witness :
    (0 < 5
      ∧ (validateClusterResource namespacesCheck cfgTwo envClean 5).terminal
        = machineDecision (namespacesCheck.SuccessThreshold cfgTwo)
            (namespacesCheck.FailureThreshold cfgTwo)
            (stateAt envClean (validateClusterResource namespacesCheck cfgTwo envClean 5).roundsExecuted))
      ∧ (validateClusterResource namespacesCheck cfgTwo envClean 5).terminal = some .succeeded
      ∧ (validateClusterResource namespacesCheck cfgTwo envClean 5).roundsExecuted = 2 :=
  ⟨⟨by decide,
      (spec_c2_counter_machine namespacesCheck cfgTwo envClean 5).2.2.2.1 (by decide)⟩,
    by decide, by decide⟩

/-! ### Claim C3 -/

/-- C3: a cluster list error in any executed round of any check makes the
whole run fail: no schedule lets Validate succeed, and the schedule on
which that goroutine's send is the first received makes Validate return
exactly that error wrapped with the check's group/version/resource
identity; the error leaves the counters, the termination round and the
terminal state untouched (they depend only on the validator outputs). -/
theorem spec_c3_lister_error (checks : List CheckRun) (globalCfg : ValidationConfiguration)
    (fuel : Nat) (c : CheckRun) (hc : c ∈ checks) (k : Nat) (e : String)
    (hk : k < (validateClusterResource c.resource globalCfg c.env fuel).roundsExecuted)
    (he : (c.env k).listErr = some e)
    (hfirst : ∀ j < k, (c.env j).listErr = none) :
    (∀ sched, Validate checks globalCfg fuel sched ≠ .success)
      ∧ (∃ sched, Validate checks globalCfg fuel sched
          = .failure (.listError (groupVersionResource c.resource.APIVersion c.resource.Name) e))
      ∧ ∀ env₂ : Nat → RoundIn,
          (∀ j, (env₂ j).fieldResults = (c.env j).fieldResults
            ∧ (env₂ j).conditionResults = (c.env j).conditionResults) →
          (validateClusterResource c.resource globalCfg env₂ fuel).terminal
              = (validateClusterResource c.resource globalCfg c.env fuel).terminal
            ∧ (validateClusterResource c.resource globalCfg env₂ fuel).roundsExecuted
              = (validateClusterResource c.resource globalCfg c.env fuel).roundsExecuted := by
  have hhead : (validateClusterResource c.resource globalCfg c.env fuel).events.head?
      = some (.listError (groupVersionResource c.resource.APIVersion c.resource.Name) e) :=
    loop_head_event c.resource.Required c.resource.Name
      (groupVersionResource c.resource.APIVersion c.resource.Name)
      (c.resource.SuccessThreshold globalCfg) (c.resource.FailureThreshold globalCfg)
      fuel c.env {} {} k e hk he hfirst
  refine ⟨?_, ?_, ?_⟩
  · apply Validate_not_success_of_events checks globalCfg fuel c hc
    intro habs
    rw [habs] at hhead
    exact Option.noConfusion hhead
  · exact Validate_failure_exists_sched checks globalCfg fuel _ c hc hhead
  · intro env₂ hsame
    have := loop_env_validation_independent c.resource.Required c.resource.Name
      (groupVersionResource c.resource.APIVersion c.resource.Name)
      (c.resource.SuccessThreshold globalCfg) (c.resource.FailureThreshold globalCfg)
      fuel c.env env₂ {} {} hsame
    exact ⟨this.1, this.2.1⟩

/-- C3 witness: a first-round list failure of the required check makes the
run fail with the wrapped lister error, for any schedule no success, and an
error-free variant of the environment produces the same termination. -/
theorem spec_c3_witness :
    (0 < (validateClusterResource namespacesCheck cfgTwo envListErr 5).roundsExecuted
      ∧ (envListErr 0).listErr = some "connection refused")
      ∧ (∀ sched,
          Validate [{ resource := namespacesCheck, env := envListErr }] cfgTwo 5 sched
            ≠ .success)
      ∧ ∃ sched,
          Validate [{ resource := namespacesCheck, env := envListErr }] cfgTwo 5 sched
            = .failure (.listError { Group := "", Version := "v1", Resource := "namespaces" }
                "connection refused") := by
  have h := spec_c3_lister_error [{ resource := namespacesCheck, env := envListErr }] cfgTwo 5
    { resource := namespacesCheck, env := envListErr } (List.mem_singleton.mpr rfl)
    0 "connection refused" (by decide) (by decide) (by omega)
  exact ⟨⟨by decide, by decide⟩, h.1, h.2.1⟩

/-! ### Claim C1 -/

theorem machineDecision_failed_iff (sThr fThr : Int) (st : TaskState) :
    machineDecision sThr fThr st = some .failedState ↔
      ¬ sThr ≤ st.successCount ∧ fThr ≤ st.failureCount := by
  unfold machineDecision
  by_cases h1 : st.successCount ≥ sThr
  · simp [h1]
  · by_cases h2 : st.failureCount ≥ fThr <;> simp [h1, h2]

/-- Under strictly positive effective thresholds, a task ends in the
failed terminal state exactly when its failure counter reached the failure
threshold at some executed round. -/
theorem terminal_failed_iff_reached (r : ClusterResource) (globalCfg : ValidationConfiguration)
    (env : Nat → RoundIn) (fuel : Nat)
    (hspos : 0 < r.SuccessThreshold globalCfg) (hfpos : 0 < r.FailureThreshold globalCfg)
    (hfuel : 0 < fuel) :
    (validateClusterResource r globalCfg env fuel).terminal = some .failedState ↔
      ∃ n ≤ (validateClusterResource r globalCfg env fuel).roundsExecuted,
        r.FailureThreshold globalCfg ≤ (stateAt env n).failureCount := by
  have hterm : (validateClusterResource r globalCfg env fuel).terminal
      = machineDecision (r.SuccessThreshold globalCfg) (r.FailureThreshold globalCfg)
          (stateAt env (validateClusterResource r globalCfg env fuel).roundsExecuted) :=
    loop_terminal_eq r.Required r.Name (groupVersionResource r.APIVersion r.Name)
      (r.SuccessThreshold globalCfg) (r.FailureThreshold globalCfg) fuel env {} {} hfuel
  constructor
  · intro h
    refine ⟨(validateClusterResource r globalCfg env fuel).roundsExecuted, le_refl _, ?_⟩
    rw [h] at hterm
    exact ((machineDecision_failed_iff _ _ _).mp hterm.symm).2
  · rintro ⟨n, hn, hf⟩
    cases n with
    | zero =>
      exfalso
      have h0 : (stateAt env 0).failureCount = 0 := rfl
      rw [h0] at hf
      omega
    | succ m =>
      have hfc : 0 < (stateAt env (m + 1)).failureCount := by omega
      have hsc : (stateAt env (m + 1)).successCount = 0 := by
        rcases countersAfter_zero_or (outcomesUpTo env (m + 1)) with h | h
        · exact h
        · exact absurd h (by
            have : (stateAt env (m + 1)).failureCount
                = (countersAfter (outcomesUpTo env (m + 1))).failureCount := rfl
            omega)
      have hdec : machineDecision (r.SuccessThreshold globalCfg) (r.FailureThreshold globalCfg)
          (stateAt env (m + 1)) = some .failedState := by
        rw [machineDecision_failed_iff]
        constructor
        · rw [hsc]; omega
        · exact hf
      have hlast : m + 1 = (validateClusterResource r globalCfg env fuel).roundsExecuted := by
        by_contra hne
        have hlt : m + 1 < (validateClusterResource r globalCfg env fuel).roundsExecuted := by
          omega
        have hnone : machineDecision (r.SuccessThreshold globalCfg)
            (r.FailureThreshold globalCfg) (stateAt env (m + 1)) = none :=
          loop_no_early_decision r.Required r.Name (groupVersionResource r.APIVersion r.Name)
            (r.SuccessThreshold globalCfg) (r.FailureThreshold globalCfg) fuel env {} {} m hlt
        rw [hnone] at hdec
        exact Option.noConfusion hdec
      rw [hterm, ← hlast, hdec]

/-- C1 counterexample: with the per-resource success-threshold override 0
and an all-zero global configuration, the effective success threshold is 0;
a required resource that fails every round then reaches
failureCount ≥ failureThreshold with no lister error, yet Validate
returns success — the success check, made first, fires on successCount = 0.
This refutes the claimed equivalence as stated. -/
theorem spec_c1_counterexample :
    Validate [{ resource := degenerateCheck, env := envFieldFail }] {} 3 0 = .success
      ∧ degenerateCheck.Required = true
      ∧ (∀ j < (validateClusterResource degenerateCheck {} envFieldFail 3).roundsExecuted,
          (envFieldFail j).listErr = none)
      ∧ ∃ n ≤ (validateClusterResource degenerateCheck {} envFieldFail 3).roundsExecuted,
          degenerateCheck.FailureThreshold {} ≤ (stateAt envFieldFail n).failureCount := by
  refine ⟨by decide, rfl, by decide, 1, by decide, by decide⟩

/-- C1 (amended): provided every effective threshold is strictly positive
(the code does not enforce this; with a non-positive success threshold the
success check, made first, can mask a reached failure threshold), Validate
returns success exactly when, for every check, no executed round's list
call errored and no required check's failure counter reached its failure
threshold; a non-required check reaching its failure threshold never makes
Validate fail. -/
theorem spec_c1_overall_result (checks : List CheckRun) (globalCfg : ValidationConfiguration)
    (fuel sched : Nat)
    (hpos : ∀ c ∈ checks, 0 < c.resource.SuccessThreshold globalCfg
      ∧ 0 < c.resource.FailureThreshold globalCfg)
    (hfuel : 0 < fuel)
    (hterm : ∀ c ∈ checks,
      (validateClusterResource c.resource globalCfg c.env fuel).terminal.isSome) :
    Validate checks globalCfg fuel sched = .success ↔
      ∀ c ∈ checks,
        (∀ j < (validateClusterResource c.resource globalCfg c.env fuel).roundsExecuted,
            (c.env j).listErr = none)
          ∧ ¬(c.resource.Required = true ∧
              ∃ n ≤ (validateClusterResource c.resource globalCfg c.env fuel).roundsExecuted,
                c.resource.FailureThreshold globalCfg ≤ (stateAt c.env n).failureCount) := by
  rw [Validate_success_iff]
  constructor
  · intro h c hc
    obtain ⟨hev, hsome⟩ := h c hc
    have hiff := loop_events_nil_iff c.resource.Required c.resource.Name
      (groupVersionResource c.resource.APIVersion c.resource.Name)
      (c.resource.SuccessThreshold globalCfg) (c.resource.FailureThreshold globalCfg)
      fuel c.env {} {}
    have hr := hiff.mp hev
    refine ⟨hr.1, ?_⟩
    rintro ⟨hreq, hreach⟩
    exact hr.2 ⟨hreq,
      (terminal_failed_iff_reached c.resource globalCfg c.env fuel
        (hpos c hc).1 (hpos c hc).2 hfuel).mpr hreach⟩
  · intro h c hc
    refine ⟨?_, hterm c hc⟩
    apply (loop_events_nil_iff c.resource.Required c.resource.Name
      (groupVersionResource c.resource.APIVersion c.resource.Name)
      (c.resource.SuccessThreshold globalCfg) (c.resource.FailureThreshold globalCfg)
      fuel c.env {} {}).mpr
    obtain ⟨hj, hnr⟩ := h c hc
    refine ⟨hj, ?_⟩
    rintro ⟨hreq, hfail⟩
    exact hnr ⟨hreq,
      (terminal_failed_iff_reached c.resource globalCfg c.env fuel
        (hpos c hc).1 (hpos c hc).2 hfuel).mp hfail⟩

/-- A required check that converges on a clean environment. -/
def checkCleanRequired : CheckRun := { resource := namespacesCheck, env := envClean }

/-- A non-required check that reaches its failure threshold. -/
def checkFailOptional : CheckRun := { resource := podsCheckOptional, env := envFieldFail }

/-- The two checks run side by side. -/
def mixedChecks : List CheckRun := [checkCleanRequired, checkFailOptional]

/-- C1 witness: a required check that converges and a non-required check
that reaches its failure threshold run side by side with positive
thresholds; the equivalence is instantiated there and Validate succeeds
although the non-required check terminated failed. -/
theorem spec_c1_witness :
    (∀ c ∈ mixedChecks,
        0 < c.resource.SuccessThreshold cfgTwo ∧ 0 < c.resource.FailureThreshold cfgTwo)
      ∧ (0:Nat) < 5
      ∧ (∀ c ∈ mixedChecks,
          (validateClusterResource c.resource cfgTwo c.env 5).terminal.isSome)
      ∧ (Validate mixedChecks cfgTwo 5 0 = .success ↔
          ∀ c ∈ mixedChecks,
            (∀ j < (validateClusterResource c.resource cfgTwo c.env 5).roundsExecuted,
                (c.env j).listErr = none)
              ∧ ¬(c.resource.Required = true ∧
                  ∃ n ≤ (validateClusterResource c.resource cfgTwo c.env 5).roundsExecuted,
                    c.resource.FailureThreshold cfgTwo ≤ (stateAt c.env n).failureCount))
      ∧ Validate mixedChecks cfgTwo 5 0 = .success
      ∧ (validateClusterResource podsCheckOptional cfgTwo envFieldFail 5).terminal
          = some .failedState := by
  have hpos : ∀ c ∈ mixedChecks,
      0 < c.resource.SuccessThreshold cfgTwo ∧ 0 < c.resource.FailureThreshold cfgTwo := by
    intro c hc
    rcases List.mem_cons.mp hc with h | h
    · subst h; exact ⟨by decide, by decide⟩
    · rcases List.mem_singleton.mp h with h
      subst h; exact ⟨by decide, by decide⟩
  have hterm : ∀ c ∈ mixedChecks,
      (validateClusterResource c.resource cfgTwo c.env 5).terminal.isSome := by
    intro c hc
    rcases List.mem_cons.mp hc with h | h
    · subst h; decide
    · rcases List.mem_singleton.mp h with h
      subst h; decide
  exact ⟨hpos, by decide, hterm,
    spec_c1_overall_result mixedChecks cfgTwo 5 0 hpos (by decide) hterm, by decide, by decide⟩

/-! ### Claim C5 -/

/-- Modelled from the spec: the per-resource validation summaries collected
at the decision point — the non-trivial final summaries of the tasks that
reached a terminal state.  The specification asserts the value returned by
Validate carries these. -/
def collectedSummaries (checks : List CheckRun) (globalCfg : ValidationConfiguration)
    (fuel : Nat) : List ValidationSummary :=
  (runsOf checks globalCfg fuel).filterMap
    (fun t => if t.terminal.isSome ∧ t.lastSummary ≠ {} then some t.lastSummary else none)

/-- C5 counterexample: two runs whose collected summaries differ — one has
a non-required check fail its threshold with a non-trivial summary, the
other converges with a trivial one — while Validate returns the identical
bare success value for both: the value returned by Validate does not carry
the collected summaries. -/
theorem spec_c5_counterexample :
    Validate [{ resource := podsCheckOptional, env := envFieldFail }] cfgTwo 3 0
        = Validate [{ resource := namespacesCheck, env := envClean }] cfgTwo 3 0
      ∧ collectedSummaries [{ resource := podsCheckOptional, env := envFieldFail }] cfgTwo 3
        ≠ collectedSummaries [{ resource := namespacesCheck, env := envClean }] cfgTwo 3 := by
  constructor
  · decide
  · decide

/-- C5 (amended): Validate's success value is bare and carries no
summaries; a failure value carries exactly one error — when that error is
a required check's threshold ValidationError, it carries that single
check's own final field and condition validation results (not the other
checks' summaries), and when it is a lister error it carries no validation
results at all. -/
theorem spec_c5_result_payload (checks : List CheckRun) (globalCfg : ValidationConfiguration)
    (fuel sched : Nat) :
    (∀ e : ValidationError,
        Validate checks globalCfg fuel sched = .failure (.validationError e) →
        ∃ c ∈ checks,
          c.resource.Required = true
            ∧ (validateClusterResource c.resource globalCfg c.env fuel).terminal
                = some .failedState
            ∧ e = { Message := "failure threshold met for resource '" ++ c.resource.Name ++ "'"
                    GVR := groupVersionResource c.resource.APIVersion c.resource.Name
                    FieldValidations :=
                      (validateClusterResource c.resource globalCfg c.env fuel).lastSummary.FieldValidation
                    ConditionValidations :=
                      (validateClusterResource c.resource globalCfg c.env fuel).lastSummary.ConditionValidation })
      ∧ ((∀ c ∈ checks,
          (validateClusterResource c.resource globalCfg c.env fuel).events = []
            ∧ (validateClusterResource c.resource globalCfg c.env fuel).terminal.isSome) →
        Validate checks globalCfg fuel sched = .success) := by
  constructor
  · intro e hfail
    obtain ⟨c, hc, hhead⟩ := Validate_failure_head checks globalCfg fuel sched _ hfail
    have hmem : GoError.validationError e
        ∈ (validateClusterResource c.resource globalCfg c.env fuel).events := by
      cases hev : (validateClusterResource c.resource globalCfg c.env fuel).events with
      | nil => rw [hev] at hhead; exact Option.noConfusion hhead
      | cons a rest =>
        rw [hev] at hhead
        simp only [List.head?_cons] at hhead
        injection hhead with hhead
        rw [← hhead]
        exact List.mem_cons_self _ _
    have := loop_validation_event c.resource.Required c.resource.Name
      (groupVersionResource c.resource.APIVersion c.resource.Name)
      (c.resource.SuccessThreshold globalCfg) (c.resource.FailureThreshold globalCfg)
      fuel c.env {} {} e hmem
    exact ⟨c, hc, this.1, this.2.1, this.2.2⟩
  · intro h
    exact (Validate_success_iff checks globalCfg fuel sched).mpr h

/-- A required check that reaches its failure threshold 1. -/
def checkFailRequired : CheckRun := { resource := podsCheckRequired, env := envFieldFail }

/-- The ValidationError the failing required pods check produces. -/
def podsThresholdError : ValidationError :=
  { Message := "failure threshold met for resource 'pods'"
    GVR := { Group := "", Version := "v1", Resource := "pods" }
    FieldValidations := [failingFieldResult]
    ConditionValidations := [] }

/-- C5 witness: a required check failing its threshold makes Validate
return the ValidationError that carries exactly that check's own field
validation results. -/
theorem spec_c5_witness :
    Validate [checkFailRequired] cfgTwo 3 0
        = .failure (.validationError podsThresholdError)
      ∧ ∃ c ∈ [checkFailRequired],
          c.resource.Required = true
            ∧ (validateClusterResource c.resource cfgTwo c.env 3).terminal = some .failedState
            ∧ podsThresholdError
              = { Message := "failure threshold met for resource '" ++ c.resource.Name ++ "'"
                  GVR := groupVersionResource c.resource.APIVersion c.resource.Name
                  FieldValidations :=
                    (validateClusterResource c.resource cfgTwo c.env 3).lastSummary.FieldValidation
                  ConditionValidations :=
                    (validateClusterResource c.resource cfgTwo c.env 3).lastSummary.ConditionValidation } :=
  ⟨by decide,
    (spec_c5_result_payload [checkFailRequired] cfgTwo 3 0).1
      podsThresholdError (by decide)⟩

end ClusterValidator
